import Mathlib

/-
Verification of the `.proto` schema generator of django-socio-grpc
(`django_socio_grpc/protobuf/generators.py`).

The development shallowly embeds the generator: Python dicts become
association lists with insertion-order semantics, the `_CodeWriter`
becomes an explicit record threaded through the generation functions,
fallible code (Django's `Model._meta.get_field` raising
`FieldDoesNotExist`) becomes `Except`.
-/

set_option autoImplicit false

namespace DSG

/-! ## Python dict operations

Python dicts preserve insertion order; assigning to an existing key
replaces the value in place, assigning to a fresh key appends.  A dict
literal `{**a, **b, ...}` starts from an empty dict and inserts the
entries of `a`, then `b`, ... in order. -/

/-- First-match lookup, i.e. `d[k]` / `d.get(k)` on a well-formed dict. -/
def dictGetOpt {α : Type} : List (String × α) → String → Option α
  | [], _ => none
  | p :: rest, k => if p.1 == k then some p.2 else dictGetOpt rest k

/-- Python `d.get(k, default)`. -/
def dictGet {α : Type} (m : List (String × α)) (k : String) (dflt : α) : α :=
  (dictGetOpt m k).getD dflt

/-- Python `k in d`. -/
def dictContains {α : Type} : List (String × α) → String → Bool
  | [], _ => false
  | p :: rest, k => p.1 == k || dictContains rest k

/-- Python `d[k] = v`: replace in place when the key exists, append otherwise. -/
def dictInsert {α : Type} (m : List (String × α)) (k : String) (v : α) : List (String × α) :=
  if dictContains m k then m.map (fun p => if p.1 == k then (k, v) else p) else m ++ [(k, v)]

/-- Python `{**a, **b}` (with `a` already a dict): insert every entry of `b` into `a`. -/
def dictMerge {α : Type} (a b : List (String × α)) : List (String × α) :=
  b.foldl (fun m p => dictInsert m p.1 p.2) a

/-- Python dict literal `{**a, **b, **c, **d}`. -/
def merge_four {α : Type} (a b c d : List (String × α)) : List (String × α) :=
  dictMerge (dictMerge (dictMerge (dictMerge [] a) b) c) d

/-- Python dict literal `{**a, **b, **c, **d, **e}`. -/
def merge_five {α : Type} (a b c d e : List (String × α)) : List (String × α) :=
  dictMerge (merge_four a b c d) e

/-! ## Data model

The generator reads models reflectively.  A `ModelDescriptor` collects
exactly the attributes `generators.py` reads from a Django model:
`__name__`, `rest_framework.utils.model_meta.is_abstract_model(model)`,
the ordered field list (`get_model_fields(model)` /
`model._meta.get_field(...)`), `model._meta.pk.name`, and the optional
override maps `model._meta.grpc_methods` / `model._meta.grpc_messages`
(`hasattr` probing becomes `Option`). -/

/-- A model field: `field_info.name` and `field_info.get_internal_type()`. -/
structure FieldDescriptor where
  name : String
  internalType : String
deriving DecidableEq

/-- A method request/response spec, the Python dict
`{is_stream: <bool>, message: <string>}` where either key may be absent. -/
structure MessageInfo where
  message : Option String
  is_stream : Option Bool
deriving DecidableEq

/-- The empty dict `dict()` used as default for an absent request/response spec. -/
def MessageInfo.empty : MessageInfo := ⟨none, none⟩

/-- One entry of a `grpc_methods` map: a dict with optional
`request` and `response` keys. -/
structure MethodData where
  request : Option MessageInfo
  response : Option MessageInfo
deriving DecidableEq

/-- A `grpc_messages` field list: either the literal string `"*"` or an
explicit list of field names. -/
inductive FieldsSpec where
  | star : FieldsSpec
  | names (l : List String) : FieldsSpec
deriving DecidableEq

/-- The read-only view of one Django model used by the generator. -/
structure ModelDescriptor where
  name : String
  is_abstract : Bool
  fields : List FieldDescriptor
  pk_name : String
  grpc_methods : Option (List (String × MethodData))
  grpc_messages : Option (List (String × FieldsSpec))
deriving DecidableEq

/-- Modelled from the spec: `django_socio_grpc.utils.model_extractor.get_model_fields`
is imported by the generator but its module is not under src/; the spec
(§3, §6) says a model exposes an ordered sequence of field descriptors,
which is what this returns. -/
def get_model_fields (model : ModelDescriptor) : List FieldDescriptor :=
  model.fields

/-- Django's `model._meta.get_field(name)`: the named field, or `none`
where Django raises `FieldDoesNotExist`. -/
def get_field (model : ModelDescriptor) (field_name : String) : Option FieldDescriptor :=
  model.fields.find? (fun f => f.name == field_name)

/-- The registry state from which `ModelProtoGenerator.__init__` resolves
its model list: the models registered under the requested app scope, in
registration order (`apps.get_app_config(app_label).get_models()`). -/
structure Registry where
  models : List ModelDescriptor
deriving DecidableEq

/-- Errors surfaced to the caller of `get_proto`.  `fieldDoesNotExist`
stands for Django's `FieldDoesNotExist` raised by `_meta.get_field`. -/
inductive GenError where
  | fieldDoesNotExist (model_name field_name : String)
deriving DecidableEq

/-- Decidable equality for `Except`, so that concrete runs of the
generator can be compared by `decide`. -/
instance {ε α : Type} [DecidableEq ε] [DecidableEq α] : DecidableEq (Except ε α) := fun x y =>
  match x, y with
  | Except.error e, Except.error f => decidable_of_iff (e = f) (by simp)
  | Except.error _, Except.ok _ => isFalse (by simp)
  | Except.ok _, Except.error _ => isFalse (by simp)
  | Except.ok a, Except.ok b => decidable_of_iff (a = b) (by simp)

/-! ## `_CodeWriter` (`generators.py` lines 177-198)

The buffer is kept line by line; `get_code` renders it exactly as the
`io.StringIO` buffer would read back: each `write_line` contributed
`"    " * indent ++ line ++ "\n"`. -/

structure _CodeWriter where
  buffer : List String
  indentLevel : Nat
deriving DecidableEq

/-- The writer constructed by `_CodeWriter.__init__`: empty buffer, indent 0. -/
def _CodeWriter.init : _CodeWriter := ⟨[], 0⟩

/-- The indentation written before a line: `"    "` repeated `n` times. -/
def indentSpaces (n : Nat) : String :=
  String.join (List.replicate n "    ")

/-- `_CodeWriter.write_line`: four spaces per indent level, then the line,
then a newline (the newline is added back by `get_code`). -/
def write_line (w : _CodeWriter) (line : String) : _CodeWriter :=
  { w with buffer := w.buffer ++ [indentSpaces w.indentLevel ++ line] }

/-- Entering the `with self._writer.indent():` block (`__enter__`). -/
def indentIncr (w : _CodeWriter) : _CodeWriter :=
  { w with indentLevel := w.indentLevel + 1 }

/-- Leaving the `with self._writer.indent():` block (`__exit__`). -/
def indentDecr (w : _CodeWriter) : _CodeWriter :=
  { w with indentLevel := w.indentLevel - 1 }

/-- `_CodeWriter.get_code`: the accumulated text. -/
def get_code (w : _CodeWriter) : String :=
  String.join (w.buffer.map (fun l => l ++ "\n"))

/-! ## Type mapping (`generators.py` lines 21-50) -/

/-- The `ModelProtoGenerator.type_mapping` class-attribute dict, entry for
entry; keys are the Django field class names (`models.X.__name__`). -/
def type_mapping : List (String × String) :=
  [("AutoField", "int32"),
   ("SmallIntegerField", "int32"),
   ("IntegerField", "int32"),
   ("BigIntegerField", "int64"),
   ("PositiveSmallIntegerField", "int32"),
   ("PositiveIntegerField", "int32"),
   ("FloatField", "float"),
   ("DecimalField", "string"),
   ("BooleanField", "bool"),
   ("NullBooleanField", "bool"),
   ("DateField", "string"),
   ("TimeField", "string"),
   ("DateTimeField", "string"),
   ("DurationField", "string"),
   ("CharField", "string"),
   ("TextField", "string"),
   ("EmailField", "string"),
   ("SlugField", "string"),
   ("URLField", "string"),
   ("UUIDField", "string"),
   ("GenericIPAddressField", "string"),
   ("FilePathField", "string"),
   ("Field", "string")]

/-- The lookup `self.type_mapping.get(tag, "string")` performed in
`_generate_message` (line 171). -/
def mapType (tag : String) : String :=
  dictGet type_mapping tag "string"

/-! ## Mixin defaults

The five mixins are imported from `django_socio_grpc.mixins`, which is
not under src/; their `get_default_method` / `get_default_message`
class methods are modelled from the spec (§4.2): method name
`"{Verb}{ModelName}"`, request/response message names
`"{ModelName}{Verb}Request"` / `"{ModelName}{Verb}Response"`, streaming
flag false except the List response, which is a stream; each default
message is keyed by the `"{ModelName}{Verb}Request"` convention. -/

namespace ListModelMixin

/-- Modelled from the spec: default List method descriptor; its response
is a stream (§4.2, §8 stream propagation). -/
def get_default_method (model_name : String) : List (String × MethodData) :=
  [("List" ++ model_name,
    ⟨some ⟨some (model_name ++ "ListRequest"), some false⟩,
     some ⟨some (model_name ++ "ListResponse"), some true⟩⟩)]

/-- Modelled from the spec: default List message; the List message uses
all fields (§4.2), and the Python call site passes no field-list
argument, so the default is baked in here. -/
def get_default_message (model_name : String) : List (String × FieldsSpec) :=
  [(model_name ++ "ListRequest", FieldsSpec.star)]

end ListModelMixin

namespace CreateModelMixin

/-- Modelled from the spec: default Create method descriptor (§4.2). -/
def get_default_method (model_name : String) : List (String × MethodData) :=
  [("Create" ++ model_name,
    ⟨some ⟨some (model_name ++ "CreateRequest"), some false⟩,
     some ⟨some (model_name ++ "CreateResponse"), some false⟩⟩)]

/-- Modelled from the spec: default Create message keyed by convention,
with the field list supplied by the caller (§4.2). -/
def get_default_message (model_name : String) (fields : FieldsSpec) : List (String × FieldsSpec) :=
  [(model_name ++ "CreateRequest", fields)]

end CreateModelMixin

namespace RetrieveModelMixin

/-- Modelled from the spec: default Retrieve method descriptor (§4.2). -/
def get_default_method (model_name : String) : List (String × MethodData) :=
  [("Retrieve" ++ model_name,
    ⟨some ⟨some (model_name ++ "RetrieveRequest"), some false⟩,
     some ⟨some (model_name ++ "RetrieveResponse"), some false⟩⟩)]

/-- Modelled from the spec: default Retrieve message keyed by convention,
with the field list supplied by the caller (§4.2). -/
def get_default_message (model_name : String) (fields : FieldsSpec) : List (String × FieldsSpec) :=
  [(model_name ++ "RetrieveRequest", fields)]

end RetrieveModelMixin

namespace UpdateModelMixin

/-- Modelled from the spec: default Update method descriptor (§4.2). -/
def get_default_method (model_name : String) : List (String × MethodData) :=
  [("Update" ++ model_name,
    ⟨some ⟨some (model_name ++ "UpdateRequest"), some false⟩,
     some ⟨some (model_name ++ "UpdateResponse"), some false⟩⟩)]

/-- Modelled from the spec: the Update message name the convention would
use.  `get_default_grpc_messages` never calls this (the documented
asymmetry, §4.2/§8); it is defined only so the absence of an Update
message can be stated. -/
def get_default_message (model_name : String) (fields : FieldsSpec) : List (String × FieldsSpec) :=
  [(model_name ++ "UpdateRequest", fields)]

end UpdateModelMixin

namespace DestroyModelMixin

/-- Modelled from the spec: default Destroy method descriptor (§4.2). -/
def get_default_method (model_name : String) : List (String × MethodData) :=
  [("Destroy" ++ model_name,
    ⟨some ⟨some (model_name ++ "DestroyRequest"), some false⟩,
     some ⟨some (model_name ++ "DestroyResponse"), some false⟩⟩)]

/-- Modelled from the spec: default Destroy message keyed by convention,
with the field list supplied by the caller (§4.2). -/
def get_default_message (model_name : String) (fields : FieldsSpec) : List (String × FieldsSpec) :=
  [(model_name ++ "DestroyRequest", fields)]

end DestroyModelMixin

/-! ## `ModelProtoGenerator` (`generators.py` lines 20-174) -/

/-- `get_default_grpc_methods` (lines 122-132): the Python dict literal
`{**List..., **Create..., **Retrieve..., **Update..., **Destroy...}`. -/
def get_default_grpc_methods (model_name : String) : List (String × MethodData) :=
  merge_five
    (ListModelMixin.get_default_method model_name)
    (CreateModelMixin.get_default_method model_name)
    (RetrieveModelMixin.get_default_method model_name)
    (UpdateModelMixin.get_default_method model_name)
    (DestroyModelMixin.get_default_method model_name)

/-- `get_default_grpc_messages` (lines 134-143): the Python dict literal
merging Create (`"*"`), List, Retrieve (`[pk]`), Destroy (`[pk]`). -/
def get_default_grpc_messages (model : ModelDescriptor) : List (String × FieldsSpec) :=
  merge_four
    (CreateModelMixin.get_default_message model.name FieldsSpec.star)
    (ListModelMixin.get_default_message model.name)
    (RetrieveModelMixin.get_default_message model.name (FieldsSpec.names [model.pk_name]))
    (DestroyModelMixin.get_default_message model.name (FieldsSpec.names [model.pk_name]))

/-- The override-or-default resolution at lines 90-94: `_meta.grpc_methods`
when the attribute is present, else the computed defaults. -/
def grpcMethodsOf (model : ModelDescriptor) : List (String × MethodData) :=
  match model.grpc_methods with
  | some m => m
  | none => get_default_grpc_methods model.name

/-- The override-or-default resolution at lines 146-150: `_meta.grpc_messages`
when the attribute is present, else the computed defaults. -/
def grpcMessagesOf (model : ModelDescriptor) : List (String × FieldsSpec) :=
  match model.grpc_messages with
  | some m => m
  | none => get_default_grpc_messages model

/-- `construct_method_message` (lines 114-120): the f-string
`f"{'stream ' if message_info.get('is_stream', False) else ''}{message_info.get('message', model.__name__)}"`. -/
def construct_method_message (message_info : MessageInfo) (model : ModelDescriptor) : String :=
  (if message_info.is_stream.getD false then "stream " else "")
    ++ message_info.message.getD model.name

/-- The `for method_name, method_data in grpc_methods.items():` loop of
`_generate_service` (lines 101-110). -/
def writeMethods (model : ModelDescriptor) (w : _CodeWriter) :
    List (String × MethodData) → _CodeWriter
  | [] => w
  | (method_name, method_data) :: rest =>
    writeMethods model
      (write_line w
        ("rpc " ++ method_name ++ "("
          ++ construct_method_message (method_data.request.getD MessageInfo.empty) model
          ++ ") returns ("
          ++ construct_method_message (method_data.response.getD MessageInfo.empty) model
          ++ ") \x7b\x7d"))
      rest

/-- `_generate_service` (lines 89-112). -/
def _generate_service (model : ModelDescriptor) (w : _CodeWriter) : _CodeWriter :=
  let grpc_methods := grpcMethodsOf model
  if grpc_methods.isEmpty then w
  else
    let w := write_line w ("service " ++ model.name ++ "Controller \x7b")
    let w := indentDecr (writeMethods model (indentIncr w) grpc_methods)
    let w := write_line w "\x7d"
    write_line w ""

/-- The `"*"` expansion at lines 156-160: all model fields in declared
order, or the literal list. -/
def resolveFieldNames (model : ModelDescriptor) : FieldsSpec → List String
  | FieldsSpec.star => (get_model_fields model).map FieldDescriptor.name
  | FieldsSpec.names l => l

/-- The `for field_name in grpc_message_fields_name:` loop of
`_generate_message` (lines 165-172), with the running `number` counter;
an unknown field name aborts with `FieldDoesNotExist` exactly where
Django's `_meta.get_field` raises. -/
def writeFields (model : ModelDescriptor) (w : _CodeWriter) :
    List String → Nat → Except GenError _CodeWriter
  | [], _ => Except.ok w
  | field_name :: rest, number =>
    match get_field model field_name with
    | none => Except.error (GenError.fieldDoesNotExist model.name field_name)
    | some field_info =>
      writeFields model
        (write_line w
          (mapType field_info.internalType ++ " " ++ field_info.name
            ++ " = " ++ toString (number + 1) ++ ";"))
        rest (number + 1)

/-- The `for grpc_message_name, grpc_message_fields_name in grpc_messages.items():`
loop of `_generate_message` (lines 155-174). -/
def writeMessages (model : ModelDescriptor) (w : _CodeWriter) :
    List (String × FieldsSpec) → Except GenError _CodeWriter
  | [] => Except.ok w
  | (grpc_message_name, spec) :: rest =>
    let w := write_line w ("message " ++ grpc_message_name ++ " \x7b")
    match writeFields model (indentIncr w) (resolveFieldNames model spec) 0 with
    | Except.error e => Except.error e
    | Except.ok w =>
      let w := indentDecr w
      let w := write_line w "\x7d"
      writeMessages model (write_line w "") rest

/-- `_generate_message` (lines 145-174). -/
def _generate_message (model : ModelDescriptor) (w : _CodeWriter) : Except GenError _CodeWriter :=
  let grpc_messages := grpcMessagesOf model
  if grpc_messages.isEmpty then Except.ok w
  else writeMessages model w grpc_messages

/-- The first `for model in self.models:` loop of `get_proto`
(lines 76-80): emit a service per concrete model, skip abstract models. -/
def generateServicesPass : List ModelDescriptor → _CodeWriter → _CodeWriter
  | [], w => w
  | model :: rest, w =>
    generateServicesPass rest (if model.is_abstract then w else _generate_service model w)

/-- The second `for model in self.models:` loop of `get_proto`
(lines 82-86): emit messages per concrete model, skip abstract models. -/
def generateMessagesPass : List ModelDescriptor → _CodeWriter → Except GenError _CodeWriter
  | [], w => Except.ok w
  | model :: rest, w =>
    if model.is_abstract then generateMessagesPass rest w
    else
      match _generate_message model w with
      | Except.error e => Except.error e
      | Except.ok w => generateMessagesPass rest w

/-- The generator object: configuration from `__init__` arguments, the
model list resolved at construction, and the per-instance `_writer`. -/
structure ModelProtoGenerator where
  app_name : String
  model_name : Option String
  models : List ModelDescriptor
  _writer : _CodeWriter
deriving DecidableEq

/-- Modelled from the spec: the model-list resolution of `__init__`
(lines 56-63) goes through `get_model` / `apps.get_app_config`, neither
of which is under src/.  Per the spec (§4.2 step 1), a single named
model resolves to a singleton set and an application scope to all
models registered under it; the fatal `UnknownScope` case is outside
every claim and is modelled as an empty resolution. -/
def resolveModels (registry : Registry) (model_name : Option String) : List ModelDescriptor :=
  match model_name with
  | some n =>
    match registry.models.find? (fun m => m.name == n) with
    | some m => [m]
    | none => []
  | none => registry.models

/-- `ModelProtoGenerator.__init__` (lines 52-65): store the configuration,
resolve the model list, construct the per-instance writer. -/
def ModelProtoGenerator.init (app_name : String) (model_name : Option String)
    (registry : Registry) : ModelProtoGenerator :=
  ⟨app_name, model_name, resolveModels registry model_name, _CodeWriter.init⟩

/-- The package name interpolated at line 71:
`self.app_name if self.app_name else self.model_name` (an absent
`model_name` would render as Python's `None`). -/
def packageName (g : ModelProtoGenerator) : String :=
  if g.app_name == "" then
    match g.model_name with
    | some n => n
    | none => "None"
  else g.app_name

/-- The header emission of `get_proto` (lines 68-75): syntax declaration,
package statement, fixed empty-proto import, with blank lines between. -/
def headerWriter (g : ModelProtoGenerator) : _CodeWriter :=
  let w := g._writer
  let w := write_line w "syntax = \"proto3\";"
  let w := write_line w ""
  let w := write_line w ("package " ++ packageName g ++ ";")
  let w := write_line w ""
  let w := write_line w "import \"google/protobuf/empty.proto\";"
  write_line w ""

/-- `get_proto` (lines 67-87): header, service pass, message pass, then
`self._writer.get_code()`.  The updated generator is returned alongside
the text because `self._writer` is mutated in place. -/
def get_proto (g : ModelProtoGenerator) : Except GenError (String × ModelProtoGenerator) :=
  let w := generateServicesPass g.models (headerWriter g)
  match generateMessagesPass g.models w with
  | Except.error e => Except.error e
  | Except.ok w => Except.ok (get_code w, { g with _writer := w })

/-! ## Derived definitions used by the statements -/

/-- Later-entry-wins combination of two optional values, the observable
effect of Python's `{**a, **b}` on one key: the second dict's entry
overrides the first's. -/
def overrideWith {α : Type} (a b : Option α) : Option α :=
  match b with
  | some v => some v
  | none => a

/-- The field line `f"{type} {name} = {number};"` rendered for a field
name (empty for a name absent from the model; such a name aborts
generation before anything is rendered). -/
def renderFieldFor (model : ModelDescriptor) (field_name : String) (number : Nat) : String :=
  match get_field model field_name with
  | some field_info =>
    mapType field_info.internalType ++ " " ++ field_info.name ++ " = "
      ++ toString number ++ ";"
  | none => ""

/-- A model's effective message set (override or default) references a
field name absent from the model. -/
def hasMissingField (model : ModelDescriptor) : Bool :=
  (grpcMessagesOf model).any (fun p =>
    (resolveFieldNames model p.2).any (fun n => (get_field model n).isNone))

/-! ## Concrete inputs for witnesses and counterexamples -/

/-- A concrete model carrying explicit overrides: no methods, one
Retrieve-style message. -/
def mModel : ModelDescriptor :=
  ⟨"M", false, [⟨"id", "AutoField"⟩], "id", some [],
   some [("MRetrieveRequest", FieldsSpec.names ["id"])]⟩

/-- Registry holding only `mModel`. -/
def mRegistry : Registry := ⟨[mModel]⟩

/-- A generator constructed once for the `mRegistry` configuration. -/
def mGen : ModelProtoGenerator := ModelProtoGenerator.init "app" none mRegistry

/-- A concrete model whose message override references the nonexistent
field `"nope"`. -/
def badFieldModel : ModelDescriptor :=
  ⟨"B", false, [⟨"id", "AutoField"⟩], "id", some [],
   some [("BRequest", FieldsSpec.names ["nope"])]⟩

/-- A generator over `badFieldModel`. -/
def badFieldGen : ModelProtoGenerator :=
  ModelProtoGenerator.init "app" none ⟨[badFieldModel]⟩

/-- The spec's §8 scenario model: `Book` with fields
`[id:auto, title:char, price:decimal]`, pk `id`, here with a
single-message override used to exercise `"*"` expansion. -/
def bookStarModel : ModelDescriptor :=
  ⟨"Book", false,
   [⟨"id", "AutoField"⟩, ⟨"title", "CharField"⟩, ⟨"price", "DecimalField"⟩],
   "id", none, some [("BookCreateRequest", FieldsSpec.star)]⟩

/-- The spec's §8 scenario model with no overrides at all. -/
def bookModel : ModelDescriptor :=
  ⟨"Book", false,
   [⟨"id", "AutoField"⟩, ⟨"title", "CharField"⟩, ⟨"price", "DecimalField"⟩],
   "id", none, none⟩

/-- A concrete model whose method override is the empty dict. -/
def emptyMethodsModel : ModelDescriptor :=
  ⟨"Quiet", false, [⟨"id", "AutoField"⟩], "id", some [], none⟩

/-- A concrete abstract model. -/
def abstractModel : ModelDescriptor :=
  ⟨"Abs", true, [⟨"id", "AutoField"⟩], "id", none, none⟩

/-- A method entry used to exhibit the merge-collision policy. -/
def collidingEntryA : MethodData :=
  ⟨some ⟨some "ReqA", some false⟩, some ⟨some "RespA", some false⟩⟩

/-- A second method entry under the same name as `collidingEntryA`. -/
def collidingEntryB : MethodData :=
  ⟨some ⟨some "ReqB", some false⟩, some ⟨some "RespB", some true⟩⟩

/-! ## Helper lemmas: strings -/

/-- Appending the same string on the left is injective. -/
theorem string_append_cancel_left (a s t : String) (h : a ++ s = a ++ t) : s = t := by
  have hd : a.data ++ s.data = a.data ++ t.data := by
    have h2 := congrArg String.data h
    rw [String.data_append a s, String.data_append a t] at h2
    exact h2
  have := List.append_cancel_left hd
  cases s with
  | mk ds =>
    cases t with
    | mk dt => exact congrArg String.mk this

/-- Distinct suffixes keep appended strings distinct (as `==`). -/
theorem beq_append_right (a : String) {s t : String} (h : s ≠ t) :
    ((a ++ s) == (a ++ t)) = false := by
  rw [beq_eq_false_iff_ne]
  intro hh
  exact h (string_append_cancel_left a s t hh)

/-! ## Helper lemmas: dict operations -/

theorem dictGetOpt_eq_none {α : Type} (m : List (String × α)) (k : String)
    (h : ∀ p ∈ m, (p.1 == k) = false) : dictGetOpt m k = none := by
  induction m with
  | nil => rfl
  | cons p rest ih =>
    have hp := h p (List.mem_cons_self p rest)
    simp only [dictGetOpt, hp]
    exact ih (fun q hq => h q (List.mem_cons_of_mem p hq))

theorem dictGet_pred {α : Type} (P : α → Prop) (m : List (String × α)) (k : String) (dflt : α)
    (hm : ∀ p ∈ m, P p.2) (hd : P dflt) : P (dictGet m k dflt) := by
  induction m with
  | nil => exact hd
  | cons p rest ih =>
    by_cases hk : (p.1 == k) = true
    · simpa [dictGet, dictGetOpt, hk] using hm p (List.mem_cons_self p rest)
    · have hk' : (p.1 == k) = false := by
        cases hb : p.1 == k
        · rfl
        · exact absurd hb hk
      simp only [dictGet, dictGetOpt, hk', Bool.false_eq_true, if_false]
      exact ih (fun q hq => hm q (List.mem_cons_of_mem p hq))

theorem dictContains_eq_false {α : Type} (m : List (String × α)) (k : String)
    (h : ∀ p ∈ m, (p.1 == k) = false) : dictContains m k = false := by
  induction m with
  | nil => rfl
  | cons p rest ih =>
    simp only [dictContains, h p (List.mem_cons_self p rest), Bool.false_or]
    exact ih (fun q hq => h q (List.mem_cons_of_mem p hq))

theorem dictInsert_of_fresh {α : Type} (m : List (String × α)) (k : String) (v : α)
    (h : ∀ p ∈ m, (p.1 == k) = false) : dictInsert m k v = m ++ [(k, v)] := by
  simp only [dictInsert, dictContains_eq_false m k h, Bool.false_eq_true, if_false]

theorem overrideWith_none_left {α : Type} (b : Option α) : overrideWith none b = b := by
  cases b <;> rfl

theorem overrideWith_none_right {α : Type} (a : Option α) : overrideWith a none = a := rfl

theorem overrideWith_some {α : Type} (a : Option α) (v : α) :
    overrideWith a (some v) = some v := rfl

theorem dictGetOpt_append {α : Type} (m l : List (String × α)) (k : String) :
    dictGetOpt (m ++ l) k = overrideWith (dictGetOpt l k) (dictGetOpt m k) := by
  induction m with
  | nil => simp [dictGetOpt, overrideWith]
  | cons p rest ih =>
    by_cases hk : (p.1 == k) = true
    · simp [dictGetOpt, hk, overrideWith]
    · have hk' : (p.1 == k) = false := by
        cases hb : p.1 == k
        · rfl
        · exact absurd hb hk
      simp only [List.cons_append, dictGetOpt, hk', Bool.false_eq_true, if_false]
      exact ih

theorem find_map_update {α : Type} (m : List (String × α)) (k : String) (v : α)
    (h : dictContains m k = true) :
    dictGetOpt (m.map (fun p => if p.1 == k then (k, v) else p)) k = some v := by
  induction m with
  | nil => simp [dictContains] at h
  | cons p rest ih =>
    by_cases hk : (p.1 == k) = true
    · simp [dictGetOpt, hk, beq_self_eq_true]
    · have hk' : (p.1 == k) = false := by
        cases hb : p.1 == k
        · rfl
        · exact absurd hb hk
      simp only [dictContains, hk', Bool.false_or] at h
      simp only [List.map_cons, hk', Bool.false_eq_true, if_false, dictGetOpt]
      exact ih h

theorem dictGetOpt_dictInsert_self {α : Type} (m : List (String × α)) (k : String) (v : α) :
    dictGetOpt (dictInsert m k v) k = some v := by
  unfold dictInsert
  cases hc : dictContains m k
  · simp only [Bool.false_eq_true, if_false]
    rw [dictGetOpt_append]
    have hnone : dictGetOpt m k = none := by
      apply dictGetOpt_eq_none
      intro p hp
      by_cases hpk : (p.1 == k) = true
      · exfalso
        have : dictContains m k = true := by
          clear hc
          induction m with
          | nil => cases hp
          | cons q rest ih =>
            cases hp with
            | head => simp [dictContains, hpk]
            | tail _ hmem => simp [dictContains, ih hmem]
        rw [this] at hc
        cases hc
      · cases hb : p.1 == k
        · rfl
        · exact absurd hb hpk
    rw [hnone]
    simp [dictGetOpt, overrideWith, beq_self_eq_true]
  · simp only [if_true]
    exact find_map_update m k v hc

theorem find_map_update_ne {α : Type} (m : List (String × α)) (k k' : String) (v : α)
    (h : k' ≠ k) :
    dictGetOpt (m.map (fun p => if p.1 == k then (k, v) else p)) k' = dictGetOpt m k' := by
  induction m with
  | nil => rfl
  | cons p rest ih =>
    by_cases hpk : (p.1 == k) = true
    · have hp1 : p.1 = k := beq_iff_eq.mp hpk
      have hkk' : (k == k') = false := beq_eq_false_iff_ne.mpr (fun hh => h hh.symm)
      have hpk' : (p.1 == k') = false := by rw [hp1]; exact hkk'
      simp only [List.map_cons, hpk, if_true, dictGetOpt, hkk', hpk',
        Bool.false_eq_true, if_false]
      exact ih
    · have hk1 : (p.1 == k) = false := by
        cases hb : p.1 == k
        · rfl
        · exact absurd hb hpk
      simp only [List.map_cons, hk1, Bool.false_eq_true, if_false, dictGetOpt]
      by_cases hpk' : (p.1 == k') = true
      · simp [hpk']
      · have hk2 : (p.1 == k') = false := by
          cases hb : p.1 == k'
          · rfl
          · exact absurd hb hpk'
        simp only [hk2, Bool.false_eq_true, if_false]
        exact ih

theorem dictGetOpt_dictInsert_ne {α : Type} (m : List (String × α)) (k k' : String) (v : α)
    (h : k' ≠ k) : dictGetOpt (dictInsert m k v) k' = dictGetOpt m k' := by
  unfold dictInsert
  cases hc : dictContains m k
  · simp only [Bool.false_eq_true, if_false]
    rw [dictGetOpt_append]
    have hone : dictGetOpt [(k, v)] k' = none := by
      apply dictGetOpt_eq_none
      intro p hp
      rw [List.mem_singleton] at hp
      subst hp
      exact beq_eq_false_iff_ne.mpr (fun hh => h hh.symm)
    rw [hone]
    exact overrideWith_none_left _
  · simp only [if_true]
    exact find_map_update_ne m k k' v h

theorem dictGetOpt_eq_none_of_not_mem_keys {α : Type} (l : List (String × α)) (k : String)
    (h : k ∉ l.map Prod.fst) : dictGetOpt l k = none := by
  apply dictGetOpt_eq_none
  intro p hp
  rw [beq_eq_false_iff_ne]
  intro he
  exact h (he ▸ List.mem_map_of_mem Prod.fst hp)

/-- Lookup through a Python dict merge: the right dict's entry wins on
any shared key, the left dict's entry survives otherwise. -/
theorem dictGetOpt_dictMerge {α : Type} (b : List (String × α)) :
    ∀ (a : List (String × α)) (k : String), (b.map Prod.fst).Nodup →
      dictGetOpt (dictMerge a b) k = overrideWith (dictGetOpt a k) (dictGetOpt b k) := by
  induction b with
  | nil =>
    intro a k _
    rfl
  | cons p rest ih =>
    intro a k hb
    rw [List.map_cons, List.nodup_cons] at hb
    have hstep : dictMerge a (p :: rest) = dictMerge (dictInsert a p.1 p.2) rest := rfl
    rw [hstep, ih (dictInsert a p.1 p.2) k hb.2]
    by_cases hk : k = p.1
    · rw [hk, dictGetOpt_eq_none_of_not_mem_keys rest p.1 hb.1, overrideWith_none_right,
        dictGetOpt_dictInsert_self]
      simp [dictGetOpt, beq_self_eq_true, overrideWith]
    · rw [dictGetOpt_dictInsert_ne a p.1 k p.2 hk]
      have hpk : (p.1 == k) = false := beq_eq_false_iff_ne.mpr (fun he => hk he.symm)
      simp only [dictGetOpt, hpk, Bool.false_eq_true, if_false]

/-! ## C3 — the type mapper is total with documented defaults -/

/-- C3: the type mapper is a total function: every tag yields a proto
scalar type name, the documented table entries map exactly as stated,
and any tag outside the table maps to `"string"` (no error path exists:
`mapType` is a total Lean function). -/
theorem claim3_type_mapper_total (tag : String) :
    ((∀ p ∈ type_mapping, p.1 ≠ tag) → mapType tag = "string")
    ∧ (mapType tag = "int32" ∨ mapType tag = "int64" ∨ mapType tag = "float"
        ∨ mapType tag = "bool" ∨ mapType tag = "string")
    ∧ (mapType "AutoField" = "int32" ∧ mapType "SmallIntegerField" = "int32"
        ∧ mapType "IntegerField" = "int32" ∧ mapType "PositiveSmallIntegerField" = "int32"
        ∧ mapType "PositiveIntegerField" = "int32" ∧ mapType "BigIntegerField" = "int64"
        ∧ mapType "FloatField" = "float" ∧ mapType "DecimalField" = "string"
        ∧ mapType "BooleanField" = "bool" ∧ mapType "NullBooleanField" = "bool"
        ∧ mapType "DateField" = "string" ∧ mapType "TimeField" = "string"
        ∧ mapType "DateTimeField" = "string" ∧ mapType "DurationField" = "string"
        ∧ mapType "CharField" = "string" ∧ mapType "TextField" = "string"
        ∧ mapType "EmailField" = "string" ∧ mapType "SlugField" = "string"
        ∧ mapType "URLField" = "string" ∧ mapType "UUIDField" = "string"
        ∧ mapType "GenericIPAddressField" = "string" ∧ mapType "FilePathField" = "string"
        ∧ mapType "Field" = "string") := by
  refine ⟨fun h => ?_, ?_, by decide⟩
  · unfold mapType dictGet
    rw [dictGetOpt_eq_none type_mapping tag
      (fun p hp => beq_eq_false_iff_ne.mpr (h p hp))]
    rfl
  · exact dictGet_pred
      (fun s => s = "int32" ∨ s = "int64" ∨ s = "float" ∨ s = "bool" ∨ s = "string")
      type_mapping tag "string" (by decide) (by decide)

/-- Witness for C3 at a tag outside the table. -/
theorem claim3_type_mapper_total_witness :
    (∀ p ∈ type_mapping, p.1 ≠ "JSONField") ∧ mapType "JSONField" = "string" :=
  ⟨by decide, (claim3_type_mapper_total "JSONField").1 (by decide)⟩

/-! ## C10 — method-message rendering -/

/-- C10: the rendered method-message text carries the `"stream "` prefix
exactly when the spec's `is_stream` flag is true (an absent flag counts as
false), followed by the spec's message name, which defaults to the model's
bare name when absent; `writeMethods` renders request and response with
the same `construct_method_message` function. -/
theorem claim10_method_message_rendering (message_info : MessageInfo)
    (model : ModelDescriptor) (w : _CodeWriter) (method_name : String)
    (method_data : MethodData) :
    construct_method_message message_info model
      = (if message_info.is_stream.getD false = true then "stream " else "")
          ++ message_info.message.getD model.name
    ∧ construct_method_message ⟨none, none⟩ model = model.name
    ∧ construct_method_message ⟨some "Msg", none⟩ model = "Msg"
    ∧ construct_method_message ⟨some "Msg", some false⟩ model = "Msg"
    ∧ construct_method_message ⟨none, some true⟩ model = "stream " ++ model.name
    ∧ construct_method_message ⟨some "Msg", some true⟩ model = "stream Msg"
    ∧ writeMethods model w [(method_name, method_data)]
        = write_line w ("rpc " ++ method_name ++ "("
            ++ construct_method_message (method_data.request.getD MessageInfo.empty) model
            ++ ") returns ("
            ++ construct_method_message (method_data.response.getD MessageInfo.empty) model
            ++ ") \x7b\x7d") :=
  ⟨rfl, rfl, rfl, rfl, rfl, rfl, rfl⟩

/-! ## C9 — empty-method suppression -/

/-- C9: when a model's effective method set (override or computed
default) is empty, `_generate_service` writes nothing at all for that
model — the writer is returned untouched, so not even an empty
`service {}` block appears. -/
theorem claim9_empty_method_suppression (model : ModelDescriptor) (w : _CodeWriter)
    (h : grpcMethodsOf model = []) : _generate_service model w = w := by
  simp [_generate_service, h]

/-- Witness for C9: a model whose method override is the empty dict. -/
theorem claim9_empty_method_suppression_witness :
    grpcMethodsOf emptyMethodsModel = []
    ∧ _generate_service emptyMethodsModel _CodeWriter.init = _CodeWriter.init :=
  ⟨rfl, claim9_empty_method_suppression emptyMethodsModel _CodeWriter.init rfl⟩

/-! ## C4 — default message set and its Update asymmetry -/

/-- C4: with no override, the default message set is exactly the Create
message with all fields (`"*"`), the List message with all fields, and
the Retrieve and Destroy messages with only the primary-key field, in
that merge order; the key the Update convention would use is absent. -/
theorem claim4_default_message_set (model : ModelDescriptor) :
    get_default_grpc_messages model
      = [(model.name ++ "CreateRequest", FieldsSpec.star),
         (model.name ++ "ListRequest", FieldsSpec.star),
         (model.name ++ "RetrieveRequest", FieldsSpec.names [model.pk_name]),
         (model.name ++ "DestroyRequest", FieldsSpec.names [model.pk_name])]
    ∧ dictGetOpt (get_default_grpc_messages model) (model.name ++ "UpdateRequest") = none
    ∧ UpdateModelMixin.get_default_message model.name FieldsSpec.star
        = [(model.name ++ "UpdateRequest", FieldsSpec.star)] := by
  have heq : get_default_grpc_messages model
      = [(model.name ++ "CreateRequest", FieldsSpec.star),
         (model.name ++ "ListRequest", FieldsSpec.star),
         (model.name ++ "RetrieveRequest", FieldsSpec.names [model.pk_name]),
         (model.name ++ "DestroyRequest", FieldsSpec.names [model.pk_name])] := by
    have h2 : ∀ p ∈ [(model.name ++ "CreateRequest", FieldsSpec.star)],
        (p.1 == model.name ++ "ListRequest") = false := by
      intro p hp
      rw [List.mem_singleton] at hp
      subst hp
      exact beq_append_right model.name (by decide)
    have h3 : ∀ p ∈ [(model.name ++ "CreateRequest", FieldsSpec.star),
        (model.name ++ "ListRequest", FieldsSpec.star)],
        (p.1 == model.name ++ "RetrieveRequest") = false := by
      intro p hp
      simp only [List.mem_cons, List.mem_singleton, List.not_mem_nil, or_false] at hp
      rcases hp with rfl | rfl
      · exact beq_append_right model.name (by decide)
      · exact beq_append_right model.name (by decide)
    have h4 : ∀ p ∈ [(model.name ++ "CreateRequest", FieldsSpec.star),
        (model.name ++ "ListRequest", FieldsSpec.star),
        (model.name ++ "RetrieveRequest", FieldsSpec.names [model.pk_name])],
        (p.1 == model.name ++ "DestroyRequest") = false := by
      intro p hp
      simp only [List.mem_cons, List.mem_singleton, List.not_mem_nil, or_false] at hp
      rcases hp with rfl | rfl | rfl
      · exact beq_append_right model.name (by decide)
      · exact beq_append_right model.name (by decide)
      · exact beq_append_right model.name (by decide)
    show dictInsert (dictInsert (dictInsert
        [(model.name ++ "CreateRequest", FieldsSpec.star)]
        (model.name ++ "ListRequest") FieldsSpec.star)
        (model.name ++ "RetrieveRequest") (FieldsSpec.names [model.pk_name]))
        (model.name ++ "DestroyRequest") (FieldsSpec.names [model.pk_name]) = _
    rw [dictInsert_of_fresh _ _ _ h2]
    simp only [List.cons_append, List.nil_append]
    rw [dictInsert_of_fresh _ _ _ h3]
    simp only [List.cons_append, List.nil_append]
    rw [dictInsert_of_fresh _ _ _ h4]
    simp only [List.cons_append, List.nil_append]
  refine ⟨heq, ?_, rfl⟩
  rw [heq]
  simp only [dictGetOpt,
    beq_append_right model.name (show ("CreateRequest" : String) ≠ "UpdateRequest" by decide),
    beq_append_right model.name (show ("ListRequest" : String) ≠ "UpdateRequest" by decide),
    beq_append_right model.name (show ("RetrieveRequest" : String) ≠ "UpdateRequest" by decide),
    beq_append_right model.name (show ("DestroyRequest" : String) ≠ "UpdateRequest" by decide),
    Bool.false_eq_true, if_false]

/-! ## C5 — default method merge order and overwrite policy -/

/-- C5: the default method set is the merge of the five default operation
descriptors in the exact order List, Create, Retrieve, Update, Destroy
(first conjunct, definitional), and merging five method dicts in that
order resolves every shared method name in favour of the later source
(second conjunct, the observable overwrite policy of the Python dict
literal `{**l, **c, **r, **u, **d}`). -/
theorem claim5_default_method_merge_order (model_name : String)
    (l c r u d : List (String × MethodData))
    (hl : (l.map Prod.fst).Nodup) (hc : (c.map Prod.fst).Nodup)
    (hr : (r.map Prod.fst).Nodup) (hu : (u.map Prod.fst).Nodup)
    (hd : (d.map Prod.fst).Nodup) (k : String) :
    get_default_grpc_methods model_name
      = merge_five (ListModelMixin.get_default_method model_name)
          (CreateModelMixin.get_default_method model_name)
          (RetrieveModelMixin.get_default_method model_name)
          (UpdateModelMixin.get_default_method model_name)
          (DestroyModelMixin.get_default_method model_name)
    ∧ dictGetOpt (merge_five l c r u d) k
        = overrideWith (overrideWith (overrideWith (overrideWith
            (dictGetOpt l k) (dictGetOpt c k)) (dictGetOpt r k))
            (dictGetOpt u k)) (dictGetOpt d k) := by
  refine ⟨rfl, ?_⟩
  show dictGetOpt (dictMerge (dictMerge (dictMerge (dictMerge (dictMerge [] l) c) r) u) d) k
    = _
  rw [dictGetOpt_dictMerge d _ k hd, dictGetOpt_dictMerge u _ k hu,
    dictGetOpt_dictMerge r _ k hr, dictGetOpt_dictMerge c _ k hc,
    dictGetOpt_dictMerge l _ k hl]
  simp only [show dictGetOpt ([] : List (String × MethodData)) k = none from rfl,
    overrideWith_none_left]

/-- Witness for C5 with an actual name collision: the same method name in
the first two sources, resolved in favour of the later one. -/
theorem claim5_default_method_merge_order_witness :
    (([("Touch", collidingEntryA)].map Prod.fst).Nodup
      ∧ ([("Touch", collidingEntryB)].map Prod.fst).Nodup
      ∧ (([] : List (String × MethodData)).map Prod.fst).Nodup)
    ∧ (get_default_grpc_methods "Book"
        = merge_five (ListModelMixin.get_default_method "Book")
            (CreateModelMixin.get_default_method "Book")
            (RetrieveModelMixin.get_default_method "Book")
            (UpdateModelMixin.get_default_method "Book")
            (DestroyModelMixin.get_default_method "Book")
      ∧ dictGetOpt (merge_five [("Touch", collidingEntryA)] [("Touch", collidingEntryB)]
            ([] : List (String × MethodData)) [] []) "Touch"
          = overrideWith (overrideWith (overrideWith (overrideWith
              (dictGetOpt [("Touch", collidingEntryA)] "Touch")
              (dictGetOpt [("Touch", collidingEntryB)] "Touch"))
              (dictGetOpt ([] : List (String × MethodData)) "Touch"))
              (dictGetOpt ([] : List (String × MethodData)) "Touch"))
              (dictGetOpt ([] : List (String × MethodData)) "Touch"))
    ∧ dictGetOpt (merge_five [("Touch", collidingEntryA)] [("Touch", collidingEntryB)]
          ([] : List (String × MethodData)) [] []) "Touch" = some collidingEntryB :=
  ⟨⟨by decide, by decide, by decide⟩,
   claim5_default_method_merge_order "Book"
     [("Touch", collidingEntryA)] [("Touch", collidingEntryB)] [] [] []
     (by decide) (by decide) (by decide) (by decide) (by decide) "Touch",
   by decide⟩

/-! ## Field emission: the numbering loop -/

/-- The field loop writes one line per listed name, numbered from
`number + 1` upward, leaving the indent level unchanged. -/
theorem writeFields_ok (model : ModelDescriptor) :
    ∀ (names : List String) (w : _CodeWriter) (number : Nat),
      (∀ n ∈ names, (get_field model n).isSome = true) →
      writeFields model w names number
        = Except.ok ⟨w.buffer
            ++ (names.zip (List.range' (number + 1) names.length)).map
                (fun p => indentSpaces w.indentLevel ++ renderFieldFor model p.1 p.2),
            w.indentLevel⟩ := by
  intro names
  induction names with
  | nil =>
    intro w number _
    simp [writeFields]
  | cons n rest ih =>
    intro w number h
    obtain ⟨fi, hfi⟩ := Option.isSome_iff_exists.mp (h n (List.mem_cons_self n rest))
    simp only [writeFields, hfi]
    rw [ih _ (number + 1) (fun m hm => h m (List.mem_cons_of_mem n hm))]
    simp only [List.length_cons, List.range'_succ (number + 1) rest.length 1,
      List.zip_cons_cons, List.map_cons, write_line, renderFieldFor, hfi]
    simp [List.append_assoc]

/-! ## C7 — field numbering 1..N -/

/-- C7: for a message block with N listed field names (all existing on
the model), the emitted lines pair the names, in listed order, with the
numbers `List.range' 1 N`, i.e. 1 through N sequentially with no gaps
and no reuse. -/
theorem claim7_field_numbering (model : ModelDescriptor) (w : _CodeWriter)
    (names : List String)
    (h : ∀ n ∈ names, (get_field model n).isSome = true) :
    writeFields model w names 0
      = Except.ok ⟨w.buffer
          ++ (names.zip (List.range' 1 names.length)).map
              (fun p => indentSpaces w.indentLevel ++ renderFieldFor model p.1 p.2),
          w.indentLevel⟩ :=
  writeFields_ok model names w 0 h

/-- Witness for C7 on the Book scenario: three fields numbered 1, 2, 3. -/
theorem claim7_field_numbering_witness :
    (∀ n ∈ ["id", "title", "price"], (get_field bookModel n).isSome = true)
    ∧ writeFields bookModel _CodeWriter.init ["id", "title", "price"] 0
        = Except.ok ⟨["int32 id = 1;", "string title = 2;", "string price = 3;"], 0⟩ :=
  ⟨by decide,
   claim7_field_numbering bookModel _CodeWriter.init ["id", "title", "price"] (by decide)⟩

/-! ## C6 — `"*"` expansion and literal field lists -/

/-- C6: `"*"` resolves to the model's full field list in declared order
and an explicit list resolves to itself, order preserved (first two
conjuncts); the emitted message block then contains exactly one field
line per resolved name, in that order (third conjunct). -/
theorem claim6_field_list_expansion (model : ModelDescriptor) (w : _CodeWriter)
    (grpc_message_name : String) (spec : FieldsSpec)
    (hov : model.grpc_messages = some [(grpc_message_name, spec)])
    (h : ∀ n ∈ resolveFieldNames model spec, (get_field model n).isSome = true) :
    resolveFieldNames model FieldsSpec.star
      = (get_model_fields model).map FieldDescriptor.name
    ∧ (∀ l, resolveFieldNames model (FieldsSpec.names l) = l)
    ∧ _generate_message model w
        = Except.ok ⟨w.buffer
            ++ (indentSpaces w.indentLevel ++ ("message " ++ grpc_message_name ++ " \x7b"))
              :: ((resolveFieldNames model spec).zip
                    (List.range' 1 (resolveFieldNames model spec).length)).map
                  (fun p => indentSpaces (w.indentLevel + 1) ++ renderFieldFor model p.1 p.2)
              ++ [indentSpaces w.indentLevel ++ "\x7d", indentSpaces w.indentLevel ++ ""],
          w.indentLevel⟩ := by
  have hmsgs : grpcMessagesOf model = [(grpc_message_name, spec)] := by
    simp [grpcMessagesOf, hov]
  refine ⟨rfl, fun l => rfl, ?_⟩
  unfold _generate_message
  rw [hmsgs]
  simp only [List.isEmpty_cons, Bool.false_eq_true, if_false]
  simp only [writeMessages]
  rw [writeFields_ok model (resolveFieldNames model spec) _ 0 h]
  simp only [writeMessages, indentIncr, indentDecr, write_line]
  simp [List.append_assoc]

/-- Witness for C6 on the spec's Book scenario: `"*"` expands to
`id, title, price` in declared order, numbered 1..3. -/
theorem claim6_field_list_expansion_witness :
    (bookStarModel.grpc_messages = some [("BookCreateRequest", FieldsSpec.star)]
      ∧ ∀ n ∈ resolveFieldNames bookStarModel FieldsSpec.star,
          (get_field bookStarModel n).isSome = true)
    ∧ (resolveFieldNames bookStarModel FieldsSpec.star
          = (get_model_fields bookStarModel).map FieldDescriptor.name
      ∧ (∀ l, resolveFieldNames bookStarModel (FieldsSpec.names l) = l)
      ∧ _generate_message bookStarModel _CodeWriter.init
          = Except.ok ⟨["message BookCreateRequest \x7b",
              "    int32 id = 1;", "    string title = 2;", "    string price = 3;",
              "\x7d", ""], 0⟩) :=
  ⟨⟨rfl, by decide⟩,
   claim6_field_list_expansion bookStarModel _CodeWriter.init "BookCreateRequest"
     FieldsSpec.star rfl (by decide)⟩

/-! ## C8 — abstract models are skipped in both passes -/

/-- An abstract model anywhere in the list contributes nothing to the
service pass. -/
theorem generateServicesPass_middle_abstract (m : ModelDescriptor)
    (post : List ModelDescriptor) (h : m.is_abstract = true) :
    ∀ (pre : List ModelDescriptor) (w : _CodeWriter),
      generateServicesPass (pre ++ m :: post) w = generateServicesPass (pre ++ post) w := by
  intro pre
  induction pre with
  | nil =>
    intro w
    simp [generateServicesPass, h]
  | cons p rest ih =>
    intro w
    simp only [List.cons_append, generateServicesPass]
    exact ih _

/-- An abstract model anywhere in the list contributes nothing to the
message pass. -/
theorem generateMessagesPass_middle_abstract (m : ModelDescriptor)
    (post : List ModelDescriptor) (h : m.is_abstract = true) :
    ∀ (pre : List ModelDescriptor) (w : _CodeWriter),
      generateMessagesPass (pre ++ m :: post) w = generateMessagesPass (pre ++ post) w := by
  intro pre
  induction pre with
  | nil =>
    intro w
    simp [generateMessagesPass, h]
  | cons p rest ih =>
    intro w
    simp only [List.cons_append, generateMessagesPass]
    cases hp : p.is_abstract
    · simp only [Bool.false_eq_true, if_false]
      cases hgm : _generate_message p w
      · rfl
      · exact ih _
    · simp only [if_true]
      exact ih _

/-- C8: an abstract model in the generation scope contributes nothing to
the output: the document generated with it in the model list is the one
generated with it removed, so no service block and no message block is
ever emitted for an abstract model. -/
theorem claim8_abstract_exclusion (app_name : String) (model_name : Option String)
    (w : _CodeWriter) (pre post : List ModelDescriptor) (m : ModelDescriptor)
    (h : m.is_abstract = true) :
    (get_proto ⟨app_name, model_name, pre ++ m :: post, w⟩).map Prod.fst
      = (get_proto ⟨app_name, model_name, pre ++ post, w⟩).map Prod.fst := by
  simp only [get_proto]
  rw [show headerWriter ⟨app_name, model_name, pre ++ m :: post, w⟩
      = headerWriter ⟨app_name, model_name, pre ++ post, w⟩ from rfl]
  rw [generateServicesPass_middle_abstract m post h,
    generateMessagesPass_middle_abstract m post h]
  cases generateMessagesPass (pre ++ post)
      (generateServicesPass (pre ++ post)
        (headerWriter ⟨app_name, model_name, pre ++ post, w⟩)) <;>
    simp [Except.map]

/-- Witness for C8: a registry whose only model is abstract generates the
bare header. -/
theorem claim8_abstract_exclusion_witness :
    abstractModel.is_abstract = true
    ∧ (get_proto ⟨"app", none, [abstractModel], _CodeWriter.init⟩).map Prod.fst
        = (get_proto ⟨"app", none, [], _CodeWriter.init⟩).map Prod.fst :=
  ⟨rfl, claim8_abstract_exclusion "app" none _CodeWriter.init [] [] abstractModel rfl⟩

/-! ## C1 — writer lifetime and determinism

`__init__` constructs `self._writer`; `get_proto` keeps appending to it.
Two `get_proto` calls on the same instance therefore do NOT return
byte-identical text — the second returns the document twice — while two
separately constructed generators for the same configuration and
registry state do return byte-identical text. -/

set_option maxRecDepth 40000 in
/-- Counterexample to C1 as stated: on one generator instance, a second
`get_proto` call returns the first document concatenated with itself,
not byte-identical output. -/
theorem claim1_counterexample :
    ((get_proto mGen).bind (fun p => get_proto p.2)).map Prod.fst
      = (get_proto mGen).map (fun p => p.1 ++ p.1)
    ∧ ((get_proto mGen).bind (fun p => get_proto p.2)).map Prod.fst
      ≠ (get_proto mGen).map Prod.fst := by
  constructor
  · decide
  · decide

/-- C1 (amended): constructing the generator afresh from the same
configuration and registry state for each invocation yields byte-identical
output, and every freshly constructed instance carries its own empty
writer (no writer state crosses separately constructed invocations). -/
theorem claim1_fresh_generator_determinism (app_name : String)
    (model_name : Option String) (registry : Registry)
    (g g' : ModelProtoGenerator)
    (hg : g = ModelProtoGenerator.init app_name model_name registry)
    (hg' : g' = ModelProtoGenerator.init app_name model_name registry) :
    (get_proto g).map Prod.fst = (get_proto g').map Prod.fst
    ∧ g._writer = _CodeWriter.init := by
  subst hg
  subst hg'
  exact ⟨rfl, rfl⟩

/-- Witness for the amended C1 at a concrete configuration. -/
theorem claim1_fresh_generator_determinism_witness :
    (mGen = ModelProtoGenerator.init "app" none mRegistry
      ∧ mGen = ModelProtoGenerator.init "app" none mRegistry)
    ∧ ((get_proto mGen).map Prod.fst = (get_proto mGen).map Prod.fst
        ∧ mGen._writer = _CodeWriter.init) :=
  ⟨⟨rfl, rfl⟩,
   claim1_fresh_generator_determinism "app" none mRegistry mGen mGen rfl rfl⟩

/-! ## C2 — unknown field names abort generation -/

/-- A missing field name in the list makes the field loop fail. -/
theorem writeFields_error (model : ModelDescriptor) :
    ∀ (names : List String) (w : _CodeWriter) (number : Nat),
      (∃ n ∈ names, get_field model n = none) →
      ∃ e, writeFields model w names number = Except.error e := by
  intro names
  induction names with
  | nil =>
    intro w number h
    obtain ⟨n, hn, _⟩ := h
    cases hn
  | cons n rest ih =>
    intro w number h
    cases hn : get_field model n with
    | none =>
      exact ⟨GenError.fieldDoesNotExist model.name n, by simp [writeFields, hn]⟩
    | some fi =>
      obtain ⟨x, hx, hxe⟩ := h
      rcases List.mem_cons.mp hx with hhead | htail
      · rw [hhead] at hxe
        rw [hxe] at hn
        cases hn
      · obtain ⟨e, he⟩ := ih (write_line w
          (mapType fi.internalType ++ " " ++ fi.name ++ " = "
            ++ toString (number + 1) ++ ";")) (number + 1) ⟨x, htail, hxe⟩
        exact ⟨e, by simp [writeFields, hn, he]⟩

/-- A missing field name in any message of the map makes the message loop
fail. -/
theorem writeMessages_error (model : ModelDescriptor) :
    ∀ (msgs : List (String × FieldsSpec)) (w : _CodeWriter),
      (∃ p ∈ msgs, ∃ n ∈ resolveFieldNames model p.2, get_field model n = none) →
      ∃ e, writeMessages model w msgs = Except.error e := by
  intro msgs
  induction msgs with
  | nil =>
    intro w h
    obtain ⟨p, hp, _⟩ := h
    cases hp
  | cons q rest ih =>
    intro w h
    obtain ⟨p, hp, hbad⟩ := h
    rcases List.mem_cons.mp hp with hhead | htail
    · subst hhead
      obtain ⟨e, he⟩ := writeFields_error model (resolveFieldNames model p.2)
        (indentIncr (write_line w ("message " ++ p.1 ++ " \x7b"))) 0 hbad
      exact ⟨e, by simp [writeMessages, he]⟩
    · cases hwf : writeFields model
          (indentIncr (write_line w ("message " ++ q.1 ++ " \x7b")))
          (resolveFieldNames model q.2) 0 with
      | error e =>
        exact ⟨e, by simp [writeMessages, hwf]⟩
      | ok w' =>
        obtain ⟨e, he⟩ := ih (write_line (write_line (indentDecr w') "\x7d") "")
          ⟨p, htail, hbad⟩
        exact ⟨e, by simp [writeMessages, hwf, he]⟩

/-- A model whose effective message set references a missing field makes
`_generate_message` fail for every writer state. -/
theorem _generate_message_error (model : ModelDescriptor)
    (h : hasMissingField model = true) (w : _CodeWriter) :
    ∃ e, _generate_message model w = Except.error e := by
  unfold hasMissingField at h
  obtain ⟨p, hp, hinner⟩ := List.any_eq_true.mp h
  obtain ⟨n, hn, hnone⟩ := List.any_eq_true.mp hinner
  have hbad : ∃ q ∈ grpcMessagesOf model,
      ∃ n ∈ resolveFieldNames model q.2, get_field model n = none :=
    ⟨p, hp, n, hn, Option.isNone_iff_eq_none.mp hnone⟩
  obtain ⟨e, he⟩ := writeMessages_error model (grpcMessagesOf model) w hbad
  refine ⟨e, ?_⟩
  unfold _generate_message
  cases hmm : grpcMessagesOf model with
  | nil =>
    rw [hmm] at hp
    cases hp
  | cons q rest =>
    rw [hmm] at he
    simp [hmm, he]

/-- A concrete model with a missing field anywhere in the list makes the
message pass fail for every writer state. -/
theorem generateMessagesPass_error :
    ∀ (models : List ModelDescriptor) (w : _CodeWriter),
      (∃ m ∈ models, m.is_abstract = false ∧ hasMissingField m = true) →
      ∃ e, generateMessagesPass models w = Except.error e := by
  intro models
  induction models with
  | nil =>
    intro w h
    obtain ⟨m, hm, _⟩ := h
    cases hm
  | cons q rest ih =>
    intro w h
    obtain ⟨m, hm, habs, hbad⟩ := h
    rcases List.mem_cons.mp hm with hhead | htail
    · subst hhead
      obtain ⟨e, he⟩ := _generate_message_error m hbad w
      exact ⟨e, by simp [generateMessagesPass, habs, he]⟩
    · cases hq : q.is_abstract with
      | true =>
        obtain ⟨e, he⟩ := ih w ⟨m, htail, habs, hbad⟩
        exact ⟨e, by simp [generateMessagesPass, hq, he]⟩
      | false =>
        cases hgm : _generate_message q w with
        | error e =>
          exact ⟨e, by simp [generateMessagesPass, hq, hgm]⟩
        | ok w' =>
          obtain ⟨e, he⟩ := ih w' ⟨m, htail, habs, hbad⟩
          exact ⟨e, by simp [generateMessagesPass, hq, hgm, he]⟩

/-- C2: when any concrete model in scope has a message (override or
default) referencing a field name absent from the model, `get_proto`
surfaces an error to the caller and returns no document text at all:
its result is `Except.error`, carrying no partial document. -/
theorem claim2_unknown_field_fail_fast (g : ModelProtoGenerator)
    (m : ModelDescriptor) (hm : m ∈ g.models) (habs : m.is_abstract = false)
    (hbad : hasMissingField m = true) :
    ∃ e, get_proto g = Except.error e := by
  obtain ⟨e, he⟩ := generateMessagesPass_error g.models
    (generateServicesPass g.models (headerWriter g)) ⟨m, hm, habs, hbad⟩
  refine ⟨e, ?_⟩
  simp only [get_proto, he]

/-- Witness for C2: a model whose override references the nonexistent
field `"nope"` aborts the whole generation. -/
theorem claim2_unknown_field_fail_fast_witness :
    (badFieldModel ∈ badFieldGen.models
      ∧ badFieldModel.is_abstract = false
      ∧ hasMissingField badFieldModel = true)
    ∧ ∃ e, get_proto badFieldGen = Except.error e :=
  ⟨⟨by decide, rfl, by decide⟩,
   claim2_unknown_field_fail_fast badFieldGen badFieldModel (by decide) rfl (by decide)⟩

end DSG
